import Mathlib

/-!
Verification development for the lifting-diary workout application:
a shallow embedding of its ownership-scoped data access layer
(`data/workouts.ts`), its update server action
(`app/dashboard/workout/[workoutId]/actions.ts`) and the list
aggregation in `components/dashboard/workout-list.tsx`, together with
theorems settling the specified properties against it.

Timestamps are modelled as integer milliseconds since the epoch (the
resolution of a JavaScript `Date`); `weight` is a rational number
standing for the JavaScript number stored in the `real` column.
-/

namespace LiftingDiary

/-- A row of the `workouts` table (`src/db/schema.ts`): id, owning user,
start timestamp, optional completion timestamp, optional duration in
seconds, optional notes.  `createdAt`/`updatedAt` bookkeeping columns are
not part of any claim and are omitted. -/
structure WorkoutRow where
  id : Nat
  userId : String
  startedAt : Int
  completedAt : Option Int
  duration : Option Int
  notes : Option String
deriving DecidableEq, Repr

/-- A row of the `exercises` reference catalog (name and id are all the
display layer reads). -/
structure ExerciseRow where
  id : Nat
  name : String
deriving DecidableEq, Repr

/-- A row of the `workout_exercises` junction table: owning workout,
referenced exercise, caller-supplied display position `order`. -/
structure WorkoutExerciseRow where
  id : Nat
  workoutId : Nat
  exerciseId : Nat
  order : Int
  notes : Option String
deriving DecidableEq, Repr

/-- A row of the `sets` table: owning workout-exercise, display position
`setNumber`, reps, weight and the warmup flag. -/
structure SetRow where
  id : Nat
  workoutExerciseId : Nat
  setNumber : Int
  reps : Int
  weight : Rat
  isWarmup : Bool
deriving DecidableEq, Repr

/-- The relational store: the four tables the queries touch. -/
structure DB where
  workouts : List WorkoutRow
  workoutExercises : List WorkoutExerciseRow
  sets : List SetRow
  exercises : List ExerciseRow
deriving DecidableEq, Repr

/-! ### Sorting by an integer key

Drizzle's `orderBy: asc(col)` / `desc(col)` clauses are modelled by a
stable insertion sort on an integer key. -/

/-- Sort ascending by an integer key (models `orderBy asc`). -/
def sortByKey {α : Type} (key : α → Int) (l : List α) : List α :=
  List.insertionSort (fun a b => key a ≤ key b) l

/-- Sort descending by an integer key (models `orderBy desc`). -/
def sortByKeyDesc {α : Type} (key : α → Int) (l : List α) : List α :=
  sortByKey (fun a => -key a) l

theorem sortByKey_sorted {α : Type} (key : α → Int) (l : List α) :
    (sortByKey key l).Pairwise (fun a b => key a ≤ key b) := by
  have ht : IsTotal α (fun a b => key a ≤ key b) :=
    ⟨fun a b => le_total (key a) (key b)⟩
  have htr : IsTrans α (fun a b => key a ≤ key b) :=
    ⟨fun _ _ _ hab hbc => le_trans hab hbc⟩
  exact @List.sorted_insertionSort α (fun a b => key a ≤ key b) _ ht htr l

theorem sortByKeyDesc_sorted {α : Type} (key : α → Int) (l : List α) :
    (sortByKeyDesc key l).Pairwise (fun a b => key b ≤ key a) := by
  have h := sortByKey_sorted (fun a => -key a) l
  exact h.imp (fun hab => by omega)

theorem mem_sortByKey {α : Type} (key : α → Int) (l : List α) (x : α) :
    x ∈ sortByKey key l ↔ x ∈ l :=
  List.mem_insertionSort _

theorem mem_sortByKeyDesc {α : Type} (key : α → Int) (l : List α) (x : α) :
    x ∈ sortByKeyDesc key l ↔ x ∈ l :=
  List.mem_insertionSort _

/-! ### Query engine (`data/workouts.ts`) -/

/-- One loaded workout-exercise: its row, the joined exercise catalog row
(`with: { exercise: true }`) and its sets sorted ascending by
`setNumber`. -/
structure WorkoutExerciseTree where
  row : WorkoutExerciseRow
  exercise : Option ExerciseRow
  sets : List SetRow
deriving DecidableEq, Repr

/-- A fully materialized workout tree: the workout row with its
workout-exercises sorted ascending by `order`, each carrying its sorted
sets. -/
structure WorkoutTree where
  row : WorkoutRow
  workoutExercises : List WorkoutExerciseTree
deriving DecidableEq, Repr

/-- Materialize the nested tree for one workout row, mirroring the
`with:` clause shared by all three queries: children filtered by the
foreign key, exercises ordered ascending by `order`, sets ordered
ascending by `setNumber`. -/
def buildTree (db : DB) (w : WorkoutRow) : WorkoutTree :=
  { row := w
    workoutExercises :=
      (sortByKey (fun we => we.order)
          (db.workoutExercises.filter (fun we => we.workoutId == w.id))).map
        (fun we =>
          { row := we
            exercise := db.exercises.find? (fun e => e.id == we.exerciseId)
            sets := sortByKey (fun s => s.setNumber)
              (db.sets.filter (fun s => s.workoutExerciseId == we.id)) }) }

/-- `getWorkout(workoutId, userId)`: `findFirst` on
`and(eq(workouts.id, workoutId), eq(workouts.userId, userId))`, returning
the materialized tree or `undefined` (here `none`). -/
def getWorkout (db : DB) (workoutId : Nat) (userId : String) :
    Option WorkoutTree :=
  (db.workouts.find? (fun w => w.id == workoutId && w.userId == userId)).map
    (buildTree db)

/-- Milliseconds in a day minus one: `endOfDay` is obtained from
`setHours(23, 59, 59, 999)`, i.e. `startOfDay + 86399999`. -/
def endOfDayOffset : Int := 86399999

/-- `getWorkoutsForDate(userId, date)`: `startOfDay` is the local
midnight of the day containing `date` (`setHours(0,0,0,0)`), `endOfDay`
is `setHours(23,59,59,999)`; the query keeps the caller's workouts with
`startedAt >= startOfDay` and `startedAt < endOfDay`, ordered by
`startedAt` descending.  The function is parametrized directly by the
day's start instant. -/
def getWorkoutsForDate (db : DB) (userId : String) (startOfDay : Int) :
    List WorkoutTree :=
  let endOfDay := startOfDay + endOfDayOffset
  (sortByKeyDesc (fun w => w.startedAt)
      (db.workouts.filter
        (fun w =>
          w.userId == userId && (decide (startOfDay ≤ w.startedAt)
            && decide (w.startedAt < endOfDay))))).map
    (buildTree db)

/-- `getWorkouts(userId, limit?)`: all of the caller's workouts ordered
by `startedAt` descending, optionally truncated to `limit`. -/
def getWorkouts (db : DB) (userId : String) (limit : Option Nat) :
    List WorkoutTree :=
  let l := (sortByKeyDesc (fun w => w.startedAt)
      (db.workouts.filter (fun w => w.userId == userId))).map (buildTree db)
  match limit with
  | none => l
  | some n => l.take n

/-! ### Mutation service

`updateWorkoutAction` lives in
`app/dashboard/workout/[workoutId]/actions.ts`; the data helper
`updateWorkout` it calls is declared in `@/data/workouts` whose update
half is shown by the repository's own `docs/data-fetching.md`. -/

/-- An optional-and-nullable input field as zod's
`.optional().nullable()` produces it: absent, explicit `null`, or a
value. -/
inductive OptNull (α : Type) where
  | absent
  | null
  | given (a : α)
deriving DecidableEq, Repr

/-- Input to `updateWorkoutAction` after the zod schema's type layer:
`id` a number, `startedAt` an optional datetime, `completedAt` and
`duration` and `notes` optional nullable fields.  Datetime strings are
represented by their parsed millisecond values (`z.string().datetime()`
guarantees parseability). -/
structure UpdateWorkoutInput where
  id : Nat
  startedAt : Option Int
  completedAt : OptNull Int
  duration : OptNull Int
  notes : OptNull String
deriving DecidableEq, Repr

/-- The value constraints of `updateWorkoutSchema`: `id` positive,
`duration` (when given) a positive integer, `notes` (when given) at most
1000 characters.  Datetime well-formedness is carried by the `Int`
representation.  Note the schema relates no field to any other. -/
def validInput (i : UpdateWorkoutInput) : Bool :=
  decide (0 < i.id)
    && (match i.duration with
        | OptNull.given d => decide (0 < d)
        | _ => true)
    && (match i.notes with
        | OptNull.given s => decide (s.length ≤ 1000)
        | _ => true)

/-- The `updateData` object built by `updateWorkoutAction` lines 26–44:
each field is included only when the validated input holds a real value
(`if (data.startedAt)`, `if (data.completedAt)`,
`!== null && !== undefined` checks), so an explicit `null` is dropped. -/
structure UpdateData where
  startedAt : Option Int
  completedAt : Option Int
  duration : Option Int
  notes : Option String
deriving DecidableEq, Repr

/-- The null-filtering conversion in `updateWorkoutAction`. -/
def buildUpdateData (i : UpdateWorkoutInput) : UpdateData :=
  { startedAt := i.startedAt
    completedAt := match i.completedAt with
      | OptNull.given t => some t
      | _ => none
    duration := match i.duration with
      | OptNull.given d => some d
      | _ => none
    notes := match i.notes with
      | OptNull.given s => some s
      | _ => none }

/-- `set(data)` applied to one row: the supplied fields overwrite, the
rest keep their stored values. -/
def applyUpdate (d : UpdateData) (w : WorkoutRow) : WorkoutRow :=
  { w with
    startedAt := d.startedAt.getD w.startedAt
    completedAt := match d.completedAt with
      | some t => some t
      | none => w.completedAt
    duration := match d.duration with
      | some n => some n
      | none => w.duration
    notes := match d.notes with
      | some s => some s
      | none => w.notes }

/-- Modelled from the spec: the data helper `updateWorkout` of
`@/data/workouts` is not among the repository's source files (only its
caller and the pattern in `docs/data-fetching.md` lines 142–160 are).
Per the spec it is a single ownership-filtered conditional update —
`update(workouts).set(data).where(and(eq(workouts.id, workoutId),
eq(workouts.userId, userId))).returning()` — returning the updated row
or `undefined` when no row matched.  It is one pass: the same predicate
selects the rows to mutate and the row to return. -/
def updateWorkout (db : DB) (workoutId : Nat) (userId : String)
    (d : UpdateData) : Option WorkoutRow × DB :=
  ((db.workouts.find?
      (fun w => w.id == workoutId && w.userId == userId)).map (applyUpdate d),
    { db with
      workouts := db.workouts.map
        (fun w => if w.id == workoutId && w.userId == userId
          then applyUpdate d w else w) })

/-- Outcome of the server action as the caller observes it. -/
inductive ActionResult where
  | unauthorized
  | invalidInput
  | notFoundError
  | ok (w : WorkoutRow)
deriving DecidableEq, Repr

/-- `updateWorkoutAction`: requires an authenticated user, parses the
input against the schema (throwing before any storage access on
failure), builds the null-filtered update data, performs the
ownership-filtered update, and throws "Workout not found or you don't
have permission to update it" when no row was returned. -/
def updateWorkoutAction (db : DB) (userId : Option String)
    (i : UpdateWorkoutInput) : ActionResult × DB :=
  match userId with
  | none => (ActionResult.unauthorized, db)
  | some uid =>
    if validInput i then
      match updateWorkout db i.id uid (buildUpdateData i) with
      | (none, db2) => (ActionResult.notFoundError, db2)
      | (some w, db2) => (ActionResult.ok w, db2)
    else (ActionResult.invalidInput, db)

/-! ### Aggregator (`components/dashboard/workout-list.tsx`) -/

/-- `totalExercises`: `workout.workoutExercises.length`. -/
def totalExercises (t : WorkoutTree) : Nat :=
  t.workoutExercises.length

/-- `totalSets`: `workoutExercises.reduce((acc, we) => acc + we.sets.length, 0)`
— every set counts, warmup or not. -/
def totalSets (t : WorkoutTree) : Nat :=
  t.workoutExercises.foldl (fun acc we => acc + we.sets.length) 0

/-- `workingSets`: `sets.filter((set) => !set.isWarmup)`. -/
def workingSets (we : WorkoutExerciseTree) : List SetRow :=
  we.sets.filter (fun s => !s.isWarmup)

/-- The rep/weight summary fragment of one exercise line: rep counts of
the working sets, and the weight suffix.  The weight component is
`none` when the JSX guard `workingSets[0]?.weight &&` is falsy — that
is, when there is no first working set or its weight is the number 0. -/
structure SummaryLine where
  reps : List Int
  weight : Option Rat
deriving DecidableEq, Repr

/-- The conditional summary: rendered only when
`workingSets.length > 0`. -/
def exerciseSummary (we : WorkoutExerciseTree) : Option SummaryLine :=
  if (workingSets we).length > 0 then
    some { reps := (workingSets we).map (fun s => s.reps),
           weight := match (workingSets we).head? with
             | some s => if s.weight == 0 then none else some s.weight
             | none => none }
  else none

/-! ### Shared lemmas -/

/-- The ownership predicate used by `getWorkout` and `updateWorkout`,
as a propositional characterization. -/
theorem ownerPred_eq_true (wid : Nat) (uid : String) (w : WorkoutRow) :
    (w.id == wid && w.userId == uid) = true ↔ (w.id = wid ∧ w.userId = uid) := by
  simp [Bool.and_eq_true]

/-- When `W` is a stored row owned by `uid` and no other stored row
shares its id, the ownership-filtered `find?` locates exactly `W`. -/
theorem find_owner_eq (l : List WorkoutRow) (W : WorkoutRow) (uid : String)
    (hmem : W ∈ l) (huid : W.userId = uid)
    (hids : ∀ w ∈ l, w ≠ W → w.id ≠ W.id) :
    l.find? (fun w => w.id == W.id && w.userId == uid) = some W := by
  induction l with
  | nil => cases hmem
  | cons x xs ih =>
    by_cases hx : x = W
    · subst hx
      simp [List.find?_cons, huid]
    · have hxid : x.id ≠ W.id := hids x (List.mem_cons_self x xs) hx
      have hid : (x.id == W.id) = false := by
        simpa using hxid
      have hmem' : W ∈ xs := by
        rcases List.mem_cons.mp hmem with h | h
        · exact absurd h.symm hx
        · exact h
      have hids' : ∀ w ∈ xs, w ≠ W → w.id ≠ W.id := fun w hw =>
        hids w (List.mem_cons_of_mem x hw)
      simp [List.find?_cons, hid]
      exact ih hmem' hids'

/-- When no stored row has both the target id and the caller's user id,
the ownership-filtered `find?` comes back empty. -/
theorem find_owner_none (l : List WorkoutRow) (wid : Nat) (uid : String)
    (h : ∀ w ∈ l, ¬(w.id = wid ∧ w.userId = uid)) :
    l.find? (fun w => w.id == wid && w.userId == uid) = none := by
  rw [List.find?_eq_none]
  intro w hw
  rw [ownerPred_eq_true]
  exact h w hw

/-- The root row of a materialized tree is the row it was built from. -/
theorem buildTree_row (db : DB) (w : WorkoutRow) : (buildTree db w).row = w :=
  rfl

/-- Membership characterization of `getWorkoutsForDate`: its trees are
exactly those built from the caller's rows whose `startedAt` lies in
`[startOfDay, startOfDay + 86399999)`. -/
theorem mem_getWorkoutsForDate (db : DB) (u : String) (s : Int)
    (t : WorkoutTree) :
    t ∈ getWorkoutsForDate db u s ↔
      ∃ w, w ∈ db.workouts ∧ w.userId = u ∧ s ≤ w.startedAt ∧
        w.startedAt < s + endOfDayOffset ∧ t = buildTree db w := by
  unfold getWorkoutsForDate
  simp only [List.mem_map, mem_sortByKeyDesc, List.mem_filter,
    Bool.and_eq_true, beq_iff_eq, decide_eq_true_eq]
  constructor
  · rintro ⟨w, ⟨hw, hu, hs, he⟩, ht⟩
    exact ⟨w, hw, hu, hs, he, ht.symm⟩
  · rintro ⟨w, hw, hu, hs, he, ht⟩
    exact ⟨w, ⟨hw, hu, hs, he⟩, ht.symm⟩

/-- Every tree produced by `getWorkouts` is built from one of the
caller's stored rows. -/
theorem mem_getWorkouts (db : DB) (u : String) (lim : Option Nat)
    (t : WorkoutTree) (ht : t ∈ getWorkouts db u lim) :
    ∃ w, w ∈ db.workouts ∧ w.userId = u ∧ t = buildTree db w := by
  unfold getWorkouts at ht
  have ht' : t ∈ (sortByKeyDesc (fun w => w.startedAt)
      (db.workouts.filter (fun w => w.userId == u))).map (buildTree db) := by
    cases lim with
    | none => exact ht
    | some n => exact List.take_subset n _ ht
  rcases List.mem_map.mp ht' with ⟨w, hw, hbt⟩
  rw [mem_sortByKeyDesc] at hw
  rcases List.mem_filter.mp hw with ⟨hmem, hp⟩
  exact ⟨w, hmem, by simpa using hp, hbt.symm⟩

/-- The nested ordering contract: exercises ascending by `order`, each
exercise's sets ascending by `setNumber`. -/
def TreeOrdered (t : WorkoutTree) : Prop :=
  t.workoutExercises.Pairwise (fun a b => a.row.order ≤ b.row.order) ∧
  ∀ we ∈ t.workoutExercises,
    we.sets.Pairwise (fun a b => a.setNumber ≤ b.setNumber)

instance (t : WorkoutTree) : Decidable (TreeOrdered t) := by
  unfold TreeOrdered
  infer_instance

/-- Every materialized tree satisfies the nested ordering contract,
whatever the storage order of the underlying rows. -/
theorem buildTree_ordered (db : DB) (w : WorkoutRow) :
    TreeOrdered (buildTree db w) := by
  constructor
  · exact (sortByKey_sorted (fun we : WorkoutExerciseRow => we.order) _).map _
      (fun a b h => h)
  · intro we hwe
    rcases List.mem_map.mp hwe with ⟨we', _, hwe'⟩
    rw [← hwe']
    exact sortByKey_sorted (fun s : SetRow => s.setNumber) _

/-- A single-workout store: workout 1 owned by `"alice"`. -/
def wAlice : WorkoutRow :=
  { id := 1, userId := "alice", startedAt := 0, completedAt := none,
    duration := none, notes := none }

def dbOne : DB :=
  { workouts := [wAlice], workoutExercises := [], sets := [], exercises := [] }

def dbEmpty : DB :=
  { workouts := [], workoutExercises := [], sets := [], exercises := [] }

/-- C1: for a stored workout `W` owned by `U` (ids unique in the store),
`getWorkout (W.id) U` returns `W`'s materialized tree, `getWorkout
(W.id) V` for any `V ≠ U` returns `none`, and no tree returned by any of
the three query operations carries a `userId` different from the
caller's. -/
theorem getWorkout_ownership (db : DB) (W : WorkoutRow) (U V : String)
    (hmem : W ∈ db.workouts) (hU : W.userId = U)
    (hids : ∀ w ∈ db.workouts, w ≠ W → w.id ≠ W.id) (hV : V ≠ U) :
    getWorkout db W.id U = some (buildTree db W) ∧
    getWorkout db W.id V = none ∧
    (∀ (wid : Nat) (u : String) (t : WorkoutTree),
        getWorkout db wid u = some t → t.row.userId = u) ∧
    (∀ (u : String) (s : Int) (t : WorkoutTree),
        t ∈ getWorkoutsForDate db u s → t.row.userId = u) ∧
    (∀ (u : String) (lim : Option Nat) (t : WorkoutTree),
        t ∈ getWorkouts db u lim → t.row.userId = u) := by
  refine ⟨?_, ?_, ?_, ?_, ?_⟩
  · unfold getWorkout
    rw [find_owner_eq db.workouts W U hmem hU hids]
    rfl
  · unfold getWorkout
    rw [find_owner_none]
    · rfl
    · intro w hw ⟨hid, hu⟩
      by_cases hwW : w = W
      · subst hwW
        exact hV (hu.symm.trans hU)
      · exact hids w hw hwW hid
  · intro wid u t ht
    unfold getWorkout at ht
    rcases Option.map_eq_some'.mp ht with ⟨w, hfind, hbt⟩
    have hp := List.find?_some hfind
    rw [ownerPred_eq_true] at hp
    rw [← hbt, buildTree_row]
    exact hp.2
  · intro u s t ht
    rcases (mem_getWorkoutsForDate db u s t).mp ht with ⟨w, _, hu, _, _, hbt⟩
    rw [hbt, buildTree_row]
    exact hu
  · intro u lim t ht
    rcases mem_getWorkouts db u lim t ht with ⟨w, _, hu, hbt⟩
    rw [hbt, buildTree_row]
    exact hu

theorem getWorkout_ownership_witness :
    getWorkout dbOne 1 "alice" = some (buildTree dbOne wAlice) ∧
    getWorkout dbOne 1 "bob" = none := by
  have h := getWorkout_ownership dbOne wAlice "alice" "bob"
    (by decide) rfl (by decide) (by decide)
  exact ⟨h.1, h.2.1⟩

/-- C7: when the workout with id `X` belongs to someone other than `V`
(store `db`), the caller sees exactly what they would see against a
store `db2` holding no workout with id `X` at all: `none` in both
worlds. -/
theorem getWorkout_absent_indistinct (db db2 : DB) (X : Nat) (V : String)
    (h1 : ∀ w ∈ db.workouts, w.id = X → w.userId ≠ V)
    (h2 : ∀ w ∈ db2.workouts, w.id ≠ X) :
    getWorkout db X V = none ∧ getWorkout db2 X V = getWorkout db X V := by
  have hdb : getWorkout db X V = none := by
    unfold getWorkout
    rw [find_owner_none]
    · rfl
    · intro w hw ⟨hid, hu⟩
      exact h1 w hw hid hu
  have hdb2 : getWorkout db2 X V = none := by
    unfold getWorkout
    rw [find_owner_none]
    · rfl
    · intro w hw ⟨hid, _⟩
      exact h2 w hw hid
  exact ⟨hdb, hdb2.trans hdb.symm⟩

theorem getWorkout_absent_indistinct_witness :
    getWorkout dbOne 1 "bob" = none ∧
    getWorkout dbEmpty 1 "bob" = getWorkout dbOne 1 "bob" :=
  getWorkout_absent_indistinct dbOne dbEmpty 1 "bob" (by decide) (by decide)

/-- C3: every tree any of the three query operations hands back obeys
the nested ordering contract — exercises ascending by `order`, each
exercise's sets ascending by `setNumber` — over every possible storage
content, hence over every insertion order of the rows. -/
theorem queries_tree_ordered (db : DB) :
    (∀ (wid : Nat) (u : String) (t : WorkoutTree),
        getWorkout db wid u = some t → TreeOrdered t) ∧
    (∀ (u : String) (s : Int) (t : WorkoutTree),
        t ∈ getWorkoutsForDate db u s → TreeOrdered t) ∧
    (∀ (u : String) (lim : Option Nat) (t : WorkoutTree),
        t ∈ getWorkouts db u lim → TreeOrdered t) := by
  refine ⟨?_, ?_, ?_⟩
  · intro wid u t ht
    rcases Option.map_eq_some'.mp ht with ⟨w, _, hbt⟩
    rw [← hbt]
    exact buildTree_ordered db w
  · intro u s t ht
    rcases (mem_getWorkoutsForDate db u s t).mp ht with ⟨w, _, _, _, _, hbt⟩
    rw [hbt]
    exact buildTree_ordered db w
  · intro u lim t ht
    rcases mem_getWorkouts db u lim t ht with ⟨w, _, _, hbt⟩
    rw [hbt]
    exact buildTree_ordered db w

/-- The workout row of the scrambled store below. -/
def wScr : WorkoutRow :=
  { id := 1, userId := "u", startedAt := 0, completedAt := none,
    duration := none, notes := none }

/-- A store whose child rows are deliberately inserted out of display
order: exercise with `order` 2 before `order` 1, sets with `setNumber`
2 before 1. -/
def dbScrambled : DB :=
  { workouts := [wScr],
    workoutExercises :=
      [{ id := 10, workoutId := 1, exerciseId := 100, order := 2, notes := none },
       { id := 11, workoutId := 1, exerciseId := 101, order := 1, notes := none }],
    sets :=
      [{ id := 20, workoutExerciseId := 11, setNumber := 2, reps := 5,
         weight := 100, isWarmup := false },
       { id := 21, workoutExerciseId := 11, setNumber := 1, reps := 3,
         weight := 90, isWarmup := true },
       { id := 22, workoutExerciseId := 10, setNumber := 1, reps := 8,
         weight := 50, isWarmup := false }],
    exercises := [{ id := 100, name := "Bench Press" },
                  { id := 101, name := "Squat" }] }

theorem queries_tree_ordered_witness :
    getWorkout dbScrambled 1 "u" = some (buildTree dbScrambled wScr) ∧
    TreeOrdered (buildTree dbScrambled wScr) :=
  ⟨by decide,
    (queries_tree_ordered dbScrambled).1 1 "u" (buildTree dbScrambled wScr)
      (by decide)⟩

/-- `reduce` with accumulator, as a sum. -/
theorem foldl_add_sets_length (l : List WorkoutExerciseTree) (n : Nat) :
    l.foldl (fun acc we => acc + we.sets.length) n
      = n + (l.map (fun we => we.sets.length)).sum := by
  induction l generalizing n with
  | nil => simp
  | cons x xs ih => simp [List.foldl_cons, ih, Nat.add_assoc]

/-- One exercise holding only two warmup sets. -/
def exWarm : WorkoutExerciseTree :=
  { row := { id := 10, workoutId := 1, exerciseId := 100, order := 1,
             notes := none },
    exercise := some { id := 100, name := "Bench Press" },
    sets :=
      [{ id := 20, workoutExerciseId := 10, setNumber := 1, reps := 5,
         weight := 45, isWarmup := true },
       { id := 21, workoutExerciseId := 10, setNumber := 2, reps := 5,
         weight := 65, isWarmup := true }] }

/-- A loaded workout whose single exercise is all-warmup. -/
def treeWarm : WorkoutTree :=
  { row := { id := 1, userId := "u", startedAt := 0, completedAt := none,
             duration := none, notes := none },
    workoutExercises := [exWarm] }

/-- A loaded workout with no exercises at all. -/
def treeBare : WorkoutTree :=
  { row := { id := 2, userId := "u", startedAt := 0, completedAt := none,
             duration := none, notes := none },
    workoutExercises := [] }

/-- C8: the reported total set count includes warmup sets (it is the sum,
over the exercises, of warmup plus working sets), and the edge cases
hold without error: an exercise with two warmup sets and no working set
yields `totalSets = 2`, zero working sets and no rep/weight summary
line, and a workout with zero exercises reports zero counts. -/
theorem aggregator_totals :
    (∀ t : WorkoutTree, totalSets t =
      (t.workoutExercises.map (fun we =>
        (we.sets.filter (fun s => s.isWarmup)).length
          + (workingSets we).length)).sum) ∧
    totalExercises treeWarm = 1 ∧ totalSets treeWarm = 2 ∧
    (workingSets exWarm).length = 0 ∧ exerciseSummary exWarm = none ∧
    totalExercises treeBare = 0 ∧ totalSets treeBare = 0 := by
  refine ⟨?_, by decide, by decide, by decide, by decide, by decide, by decide⟩
  intro t
  unfold totalSets
  rw [foldl_add_sets_length, Nat.zero_add]
  congr 1
  apply List.map_congr_left
  intro we _
  have h := List.length_eq_length_filter_add
    (l := we.sets) (fun s => s.isWarmup)
  unfold workingSets
  exact h

/-- A working set whose weight is the number 0. -/
def setZeroW : SetRow :=
  { id := 40, workoutExerciseId := 30, setNumber := 1, reps := 5,
    weight := 0, isWarmup := false }

/-- An exercise whose only (working) set has weight 0. -/
def exZeroW : WorkoutExerciseTree :=
  { row := { id := 30, workoutId := 2, exerciseId := 200, order := 1,
             notes := none },
    exercise := some { id := 200, name := "Push Up" },
    sets := [setZeroW] }

/-- C9 counterexample: this exercise has a working set and its first
working set's weight is 0, yet the rendered line's weight component is
omitted (`none`), because the JSX guard `workingSets[0]?.weight &&`
treats the number 0 as falsy; the claim would require the weight to
appear. -/
theorem exerciseSummary_zero_weight_cex :
    (workingSets exZeroW).head? = some setZeroW ∧ setZeroW.weight = 0 ∧
    exerciseSummary exZeroW = some { reps := [5], weight := none } ∧
    exerciseSummary exZeroW ≠ some { reps := [5], weight := some 0 } := by
  decide

/-- C9 amended: for every exercise with at least one working set, the
summary line carries the full working-set rep sequence, and the first
working set's weight exactly when that weight is nonzero — a first
working set of weight 0 yields a line with the weight omitted. -/
theorem exerciseSummary_spec (we : WorkoutExerciseTree) (s0 : SetRow)
    (h : (workingSets we).head? = some s0) :
    exerciseSummary we = some
      { reps := (workingSets we).map (fun s => s.reps),
        weight := if s0.weight == 0 then none else some s0.weight } := by
  have hlen : 0 < (workingSets we).length := by
    cases hw : workingSets we with
    | nil => rw [hw] at h; cases h
    | cons a l => simp
  unfold exerciseSummary
  rw [if_pos hlen, h]

/-- A working set with nonzero weight followed by another. -/
def setHeavy : SetRow :=
  { id := 50, workoutExerciseId := 31, setNumber := 1, reps := 5,
    weight := 100, isWarmup := false }

def exHeavy : WorkoutExerciseTree :=
  { row := { id := 31, workoutId := 3, exerciseId := 201, order := 1,
             notes := none },
    exercise := some { id := 201, name := "Deadlift" },
    sets := [setHeavy,
             { id := 51, workoutExerciseId := 31, setNumber := 2, reps := 8,
               weight := 120, isWarmup := false }] }

theorem exerciseSummary_spec_witness :
    (workingSets exHeavy).head? = some setHeavy ∧
    exerciseSummary exHeavy = some
      { reps := (workingSets exHeavy).map (fun s => s.reps),
        weight := if setHeavy.weight == 0 then none else some setHeavy.weight } :=
  ⟨by decide, exerciseSummary_spec exHeavy setHeavy (by decide)⟩

/-- A workout starting at the final millisecond of the day that begins
at instant 0 (i.e. `23:59:59.999`). -/
def wLastMs : WorkoutRow :=
  { id := 5, userId := "u1", startedAt := 86399999, completedAt := none,
    duration := none, notes := none }

def dbLastMs : DB :=
  { workouts := [wLastMs], workoutExercises := [], sets := [],
    exercises := [] }

/-- C2 counterexample: `wLastMs` is owned by the caller and its
`startedAt` lies inside the claimed half-open calendar day
`[startOfDay, startOfDay + 86400000)` (it is the day's final
millisecond), yet `getWorkoutsForDate` returns the empty list, because
the query's upper bound is the strict comparison
`startedAt < startOfDay + 86399999` taken from
`setHours(23, 59, 59, 999)`. -/
theorem getWorkoutsForDate_last_ms_cex :
    wLastMs ∈ dbLastMs.workouts ∧ wLastMs.userId = "u1" ∧
    (0 : Int) ≤ wLastMs.startedAt ∧ wLastMs.startedAt < 0 + 86400000 ∧
    getWorkoutsForDate dbLastMs "u1" 0 = [] := by
  decide

/-- C2 amended: `getWorkoutsForDate` returns exactly the caller's
workouts whose `startedAt` lies in `[startOfDay, startOfDay + 86399999)`
— the day's final millisecond is excluded along with the following
midnight — ordered by `startedAt` descending. -/
theorem getWorkoutsForDate_spec (db : DB) (u : String) (s : Int) :
    (∀ w : WorkoutRow,
      (∃ t, t ∈ getWorkoutsForDate db u s ∧ t.row = w) ↔
        (w ∈ db.workouts ∧ w.userId = u ∧ s ≤ w.startedAt ∧
          w.startedAt < s + 86399999)) ∧
    (getWorkoutsForDate db u s).Pairwise
      (fun a b => b.row.startedAt ≤ a.row.startedAt) := by
  constructor
  · intro w
    constructor
    · rintro ⟨t, ht, hrow⟩
      rcases (mem_getWorkoutsForDate db u s t).mp ht with
        ⟨w', hmem, hu, hs, he, hbt⟩
      have hww : w = w' := by rw [← hrow, hbt, buildTree_row]
      subst hww
      exact ⟨hmem, hu, hs, he⟩
    · rintro ⟨hmem, hu, hs, he⟩
      refine ⟨buildTree db w, ?_, buildTree_row db w⟩
      exact (mem_getWorkoutsForDate db u s (buildTree db w)).mpr
        ⟨w, hmem, hu, hs, he, rfl⟩
  · unfold getWorkoutsForDate
    exact (sortByKeyDesc_sorted (fun w : WorkoutRow => w.startedAt) _).map _
      (fun a b h => h)

/-- C4: when no stored workout carries both the target id and the
caller's user id — absent or owned by someone else — the single
ownership-filtered conditional update returns `none` (NotFound), leaves
the store untouched, and `updateWorkoutAction` surfaces that NotFound to
its caller (the thrown "Workout not found or you don't have permission"
error) with the store still unchanged. -/
theorem updateWorkout_notfound (db : DB) (uid : String)
    (i : UpdateWorkoutInput) (hval : validInput i = true)
    (h : ∀ w ∈ db.workouts, ¬(w.id = i.id ∧ w.userId = uid)) :
    (updateWorkout db i.id uid (buildUpdateData i)).1 = none ∧
    (updateWorkout db i.id uid (buildUpdateData i)).2 = db ∧
    updateWorkoutAction db (some uid) i = (ActionResult.notFoundError, db) := by
  have hfind : db.workouts.find?
      (fun w => w.id == i.id && w.userId == uid) = none :=
    find_owner_none db.workouts i.id uid h
  have hmap : db.workouts.map
      (fun w => if w.id == i.id && w.userId == uid
        then applyUpdate (buildUpdateData i) w else w) = db.workouts := by
    have hcong : ∀ w ∈ db.workouts,
        (if w.id == i.id && w.userId == uid
          then applyUpdate (buildUpdateData i) w else w) = w := by
      intro w hw
      have hfalse : ¬((w.id == i.id && w.userId == uid) = true) := by
        rw [ownerPred_eq_true]
        exact h w hw
      exact if_neg hfalse
    calc db.workouts.map _ = db.workouts.map id :=
          List.map_congr_left hcong
      _ = db.workouts := List.map_id db.workouts
  have hupd : updateWorkout db i.id uid (buildUpdateData i) = (none, db) := by
    unfold updateWorkout
    rw [hfind, hmap]
    rfl
  refine ⟨by rw [hupd], by rw [hupd], ?_⟩
  simp only [updateWorkoutAction, if_pos hval, hupd]

/-- A no-field update input targeting workout 1, issued by a non-owner
in the witness. -/
def inputBare : UpdateWorkoutInput :=
  { id := 1, startedAt := none, completedAt := OptNull.absent,
    duration := OptNull.absent, notes := OptNull.absent }

theorem updateWorkout_notfound_witness :
    updateWorkoutAction dbOne (some "bob") inputBare =
      (ActionResult.notFoundError, dbOne) :=
  (updateWorkout_notfound dbOne "bob" inputBare (by decide) (by decide)).2.2

/-- C5: updating only `notes` changes only `notes`.  For a stored
workout `W` owned by `U` (ids unique), the action with input
`{id: W.id, notes: s}` succeeds with a row identical to `W` except for
`notes`, and rewrites the store so that `W`'s row becomes that row while
every other stored workout is left exactly as it was. -/
theorem updateNotes_frame (db : DB) (W : WorkoutRow) (U : String)
    (s : String) (hmem : W ∈ db.workouts) (hU : W.userId = U)
    (hids : ∀ w ∈ db.workouts, w ≠ W → w.id ≠ W.id)
    (hid : 0 < W.id) (hlen : s.length ≤ 1000) :
    updateWorkoutAction db (some U)
        { id := W.id, startedAt := none, completedAt := OptNull.absent,
          duration := OptNull.absent, notes := OptNull.given s } =
      (ActionResult.ok { W with notes := some s },
       { db with
          workouts := db.workouts.map
            (fun w => if w = W then { W with notes := some s } else w) }) ∧
    ({ W with notes := some s } : WorkoutRow).startedAt = W.startedAt ∧
    ({ W with notes := some s } : WorkoutRow).completedAt = W.completedAt ∧
    ({ W with notes := some s } : WorkoutRow).duration = W.duration := by
  refine ⟨?_, rfl, rfl, rfl⟩
  have hval : validInput
      { id := W.id, startedAt := none, completedAt := OptNull.absent,
        duration := OptNull.absent, notes := OptNull.given s } = true := by
    simp [validInput, hid, hlen]
  have hfind : db.workouts.find?
      (fun w => w.id == W.id && w.userId == U) = some W :=
    find_owner_eq db.workouts W U hmem hU hids
  have happ : applyUpdate (buildUpdateData
      { id := W.id, startedAt := none, completedAt := OptNull.absent,
        duration := OptNull.absent, notes := OptNull.given s }) W
      = { W with notes := some s } := rfl
  have hmap : db.workouts.map
      (fun w => if w.id == W.id && w.userId == U
        then applyUpdate (buildUpdateData
          { id := W.id, startedAt := none, completedAt := OptNull.absent,
            duration := OptNull.absent, notes := OptNull.given s }) w
        else w) =
      db.workouts.map (fun w => if w = W then { W with notes := some s }
        else w) := by
    apply List.map_congr_left
    intro w hw
    by_cases hwW : w = W
    · subst hwW
      have hp : (w.id == w.id && w.userId == U) = true := by simp [hU]
      rw [if_pos hp, if_pos rfl]
      exact happ
    · have hp : (w.id == W.id) = false := by
        simpa using hids w hw hwW
      rw [if_neg (by simp [hp]), if_neg hwW]
  have hupd : updateWorkout db W.id U (buildUpdateData
      { id := W.id, startedAt := none, completedAt := OptNull.absent,
        duration := OptNull.absent, notes := OptNull.given s })
      = (some { W with notes := some s },
         { db with
            workouts := db.workouts.map
              (fun w => if w = W then { W with notes := some s }
                else w) }) := by
    unfold updateWorkout
    rw [hfind, hmap, Option.map_some', happ]
  simp only [updateWorkoutAction, if_pos hval, hupd]

theorem updateNotes_frame_witness :
    updateWorkoutAction dbOne (some "alice")
        { id := 1, startedAt := none, completedAt := OptNull.absent,
          duration := OptNull.absent, notes := OptNull.given "x" } =
      (ActionResult.ok { wAlice with notes := some "x" },
       { dbOne with
          workouts := dbOne.workouts.map
            (fun w => if w = wAlice then { wAlice with notes := some "x" }
              else w) }) :=
  (updateNotes_frame dbOne wAlice "alice" "x" (by decide) rfl (by decide)
    (by decide) (by decide)).1

/-- A workout started at millisecond 1000. -/
def wStarted : WorkoutRow :=
  { id := 3, userId := "u1", startedAt := 1000, completedAt := none,
    duration := none, notes := none }

def dbStarted : DB :=
  { workouts := [wStarted], workoutExercises := [], sets := [],
    exercises := [] }

/-- An update supplying a `completedAt` (millisecond 500) that precedes
the stored `startedAt` (millisecond 1000). -/
def inputEarlyEnd : UpdateWorkoutInput :=
  { id := 3, startedAt := none, completedAt := OptNull.given 500,
    duration := OptNull.absent, notes := OptNull.absent }

/-- C6, evaluated at the failing input: `updateWorkoutSchema` contains
no cross-field comparison of `completedAt` against the workout's
`startedAt`, so this input passes validation, the update proceeds to
storage, and the store ends up holding a workout whose `completedAt`
(500) is strictly before its `startedAt` (1000) — the claimed
validation rejection never happens. -/
theorem completedAt_before_startedAt_stored :
    validInput inputEarlyEnd = true ∧
    updateWorkoutAction dbStarted (some "u1") inputEarlyEnd =
      (ActionResult.ok { wStarted with completedAt := some 500 },
       { dbStarted with
          workouts := [{ wStarted with completedAt := some 500 }] }) ∧
    (500 : Int) < wStarted.startedAt := by
  decide

/-- C10: an explicit `null` in the update input is filtered out by
`updateWorkoutAction` before it reaches storage, so the corresponding
stored field keeps its old value instead of being cleared; and no update
whatsoever can empty a populated `completedAt`, `duration` or `notes` —
if the field is `none` after `applyUpdate`, it was `none` before.  In
particular the edit form's `notes: null` for an emptied notes box
silently preserves the stored notes. -/
theorem explicit_null_preserved (db : DB) (W : WorkoutRow) (U : String)
    (hmem : W ∈ db.workouts) (hU : W.userId = U)
    (hids : ∀ w ∈ db.workouts, w ≠ W → w.id ≠ W.id) (hid : 0 < W.id) :
    (updateWorkoutAction db (some U)
        { id := W.id, startedAt := none, completedAt := OptNull.null,
          duration := OptNull.null, notes := OptNull.null }).1
      = ActionResult.ok W ∧
    (∀ (d : UpdateData) (w : WorkoutRow),
      ((applyUpdate d w).completedAt = none → w.completedAt = none) ∧
      ((applyUpdate d w).duration = none → w.duration = none) ∧
      ((applyUpdate d w).notes = none → w.notes = none)) := by
  constructor
  · have hval : validInput
        { id := W.id, startedAt := none, completedAt := OptNull.null,
          duration := OptNull.null, notes := OptNull.null } = true := by
      simp [validInput, hid]
    have hfind : db.workouts.find?
        (fun w => w.id == W.id && w.userId == U) = some W :=
      find_owner_eq db.workouts W U hmem hU hids
    have happ : applyUpdate (buildUpdateData
        { id := W.id, startedAt := none, completedAt := OptNull.null,
          duration := OptNull.null, notes := OptNull.null }) W = W := rfl
    have hupd : (updateWorkout db W.id U (buildUpdateData
        { id := W.id, startedAt := none, completedAt := OptNull.null,
          duration := OptNull.null, notes := OptNull.null })).1 = some W := by
      unfold updateWorkout
      rw [hfind]
      simp only [Option.map_some', happ]
    simp only [updateWorkoutAction, if_pos hval]
    rcases hu : updateWorkout db W.id U (buildUpdateData
        { id := W.id, startedAt := none, completedAt := OptNull.null,
          duration := OptNull.null, notes := OptNull.null }) with ⟨r, db2⟩
    rw [hu] at hupd
    simp at hupd
    rw [hupd]
  · intro d w
    refine ⟨?_, ?_, ?_⟩
    · unfold applyUpdate
      cases d.completedAt <;> simp
    · unfold applyUpdate
      cases d.duration <;> simp
    · unfold applyUpdate
      cases d.notes <;> simp

theorem explicit_null_preserved_witness :
    (updateWorkoutAction dbOne (some "alice")
        { id := 1, startedAt := none, completedAt := OptNull.null,
          duration := OptNull.null, notes := OptNull.null }).1
      = ActionResult.ok wAlice :=
  (explicit_null_preserved dbOne wAlice "alice" (by decide) rfl (by decide)
    (by decide)).1

end LiftingDiary
